import Mathlib

/-!
Verification of the openlobby-server pagination / search-result assembly
layer against its specification.

The definitions below are a shallow embedding of
`src/openlobby/core/api/types.py` and `src/openlobby/core/api/schema.py`.
External collaborators (the relational store, the search index) are passed
in as explicit values: a list of user rows / report rows stands for the
Django ORM tables, and a `SearchResponse` stands for the Elasticsearch
response object.  The `Paginator` class lives in `paginator.py`, which is
not part of the sources at hand; it is modelled from the specification
(section 4.1) and marked as such.
-/

/-- The six text fields of a report hit that are passed through
`get_higlighted` in `Report.from_es` (types.py lines 41-46). -/
inductive TextField where
  | title
  | body
  | received_benefit
  | provided_benefit
  | our_participants
  | other_participants
  deriving DecidableEq, Repr

/-- An Elasticsearch hit for a report, as consumed by `Report.from_es`.
`meta_id` models `hit.meta.id`; each text field is `Option`al because the
source guards access with `field in hit`; `meta_highlight` models the
optional `hit.meta.highlight` attribute (`hasattr(hit.meta, 'highlight')`),
a dict from field name to the list of highlighted fragments.  The opaque
JSON blob `extra` is modelled as an uninterpreted string. -/
structure Hit where
  meta_id : String
  author_id : Int
  date : String
  published : String
  extra : String
  title : Option String
  body : Option String
  received_benefit : Option String
  provided_benefit : Option String
  our_participants : Option String
  other_participants : Option String
  meta_highlight : Option (List (TextField × List String))
  deriving DecidableEq, Repr

/-- Dynamic field access `hit[field]` restricted to the six text fields. -/
def Hit.fieldVal (h : Hit) : TextField → Option String
  | .title => h.title
  | .body => h.body
  | .received_benefit => h.received_benefit
  | .provided_benefit => h.provided_benefit
  | .our_participants => h.our_participants
  | .other_participants => h.other_participants

/-- types.py lines 12-16, `get_higlighted(hit, field)`:
if `hasattr(hit.meta, 'highlight') and field in hit.meta.highlight`, return
`hit.meta.highlight[field][0]`; else `hit[field] if field in hit else ''`.
A present highlight entry always carries at least one fragment in an
Elasticsearch response, so the `headD` default for an empty fragment list
(where the Python source would raise `IndexError`) is unreachable. -/
def get_higlighted (hit : Hit) (field : TextField) : String :=
  match hit.meta_highlight.bind (fun hl => hl.lookup field) with
  | some frags => frags.headD ""
  | none => (hit.fieldVal field).getD ""

/-- A row of the relational `User` model, with the attributes read by the
embedded code. -/
structure UserRow where
  id : Int
  openid_uid : String
  first_name : String
  last_name : String
  email : String
  is_author : Bool
  extra : String
  deriving DecidableEq, Repr

/-- A row of the relational `Report` model, restricted to the attributes
used by the `Count('report', filter=Q(report__is_draft=False))` annotation
in `_get_authors_cache`. -/
structure ReportRow where
  author_id : Int
  is_draft : Bool
  deriving DecidableEq, Repr

/-- The relational store: the `User` and `Report` tables. -/
structure DB where
  users : List UserRow
  reports : List ReportRow
  deriving DecidableEq, Repr

/-- The `Author` GraphQL object type (types.py lines 117-133): fields
`first_name`, `last_name`, `extra` plus the relay node `id`.  The type
declares no `total_reports` field. -/
structure Author where
  id : Int
  first_name : String
  last_name : String
  extra : String
  deriving DecidableEq, Repr

/-- types.py lines 126-133, `Author.from_db(user)`. -/
def Author.from_db (u : UserRow) : Author :=
  { id := u.id
    first_name := u.first_name
    last_name := u.last_name
    extra := u.extra }

/-- types.py lines 135-140, `Author.get_node`:
`models.User.objects.get(id=id, is_author=True)` projected by `from_db`,
`None` on `DoesNotExist`. -/
def Author.get_node (users : List UserRow) (id : Int) : Option Author :=
  (users.find? (fun u => u.id == id && u.is_author)).map Author.from_db

/-- The `Report` GraphQL object type (types.py lines 19-29). -/
structure Report where
  id : String
  author : Option Author
  date : String
  published : String
  title : String
  body : String
  received_benefit : String
  provided_benefit : String
  our_participants : String
  other_participants : String
  extra : String
  deriving DecidableEq, Repr

/-- Selector for the six highlight-merged text fields of a projected
report. -/
def Report.textField (r : Report) : TextField → String
  | .title => r.title
  | .body => r.body
  | .received_benefit => r.received_benefit
  | .provided_benefit => r.provided_benefit
  | .our_participants => r.our_participants
  | .other_participants => r.other_participants

/-- types.py lines 34-48, `Report.from_es(report, author=None)`. -/
def Report.from_es (report : Hit) (author : Option Author) : Report :=
  { id := report.meta_id
    author := author
    date := report.date
    published := report.published
    title := get_higlighted report .title
    body := get_higlighted report .body
    received_benefit := get_higlighted report .received_benefit
    provided_benefit := get_higlighted report .provided_benefit
    our_participants := get_higlighted report .our_participants
    other_participants := get_higlighted report .other_participants
    extra := report.extra }

/-- `ReportDoc.get(id)` against the search index, `none` for
`NotFoundError`.  The index is the list of stored hits, keyed by
`meta_id`. -/
def ReportDoc_get (es : List Hit) (id : String) : Option Hit :=
  es.find? (fun h => h.meta_id == id)

/-- types.py lines 66-75, `Report.get_node`: fetch the document from the
search index (`None` on `NotFoundError`), resolve the author through
`Author.get_node` on the document's `author_id`, and project with
`from_es`. -/
def Report.get_node (es : List Hit) (users : List UserRow) (id : String) :
    Option Report :=
  match ReportDoc_get es id with
  | none => none
  | some report =>
    some (Report.from_es report (Author.get_node users report.author_id))

/-- The `User` GraphQL object type (types.py lines 85-91). -/
structure User where
  id : Int
  openid_uid : String
  first_name : String
  last_name : String
  email : String
  is_author : Bool
  extra : String
  deriving DecidableEq, Repr

/-- types.py lines 96-106, `User.from_db(user)`. -/
def User.from_db (u : UserRow) : User :=
  { id := u.id
    openid_uid := u.openid_uid
    first_name := u.first_name
    last_name := u.last_name
    email := u.email
    is_author := u.is_author
    extra := u.extra }

/-- The request context: `info.context.user` is the authenticated user, or
`none` for Django's `AnonymousUser` (`is_authenticated` false). -/
structure Context where
  user : Option UserRow

/-- Accumulate a decimal digit string into a natural number; `none` on the
first non-digit character. -/
def digits_to_nat : Nat → List Char → Option Nat
  | acc, [] => some acc
  | acc, c :: cs =>
    if c.isDigit then digits_to_nat (acc * 10 + (c.toNat - 48)) cs else none

/-- Model of Python's `int(s)` on a decimal literal: an optional minus
sign followed by at least one digit; any other shape raises `ValueError`
(`none` here). -/
def parse_int (s : String) : Option Int :=
  match s.data with
  | [] => none
  | '-' :: cs =>
    if cs = [] then none else (digits_to_nat 0 cs).map (fun n => -(n : Int))
  | cs => (digits_to_nat 0 cs).map (fun n => (n : Int))

/-- types.py lines 108-114, `User.get_node`: anonymous callers get `None`
before the id is even parsed; for authenticated callers the relay id
string goes through `int(id)` (a `ValueError` on a non-numeric id is
modelled as `Except.error`), and the entity is returned only when it
equals the viewer's own id. -/
def User.get_node (ctx : Context) (id : String) : Except String (Option User) :=
  match ctx.user with
  | none => .ok none
  | some viewer =>
    match parse_int id with
    | none => .error "invalid literal for int()"
    | some n =>
      if n != viewer.id then .ok none
      else .ok (some (User.from_db viewer))

/-- Modelled from the spec: relay `PageInfo` (spec section 3).  Cursors are
opaque strings encoding a 1-based integer position; the encoded integer is
what is modelled here. -/
structure PageInfo where
  has_next_page : Bool
  has_previous_page : Bool
  start_cursor : Option Nat
  end_cursor : Option Nat
  deriving DecidableEq, Repr

/-- Modelled from the spec: the `Paginator` state (spec section 4.1), since
`src/openlobby/core/api/paginator.py` is not among the sources.  The state
after construction is the half-open slice `[slice_from, slice_to)` into the
ordered result set (`slice_to = slice_from + page size`). -/
structure Paginator where
  slice_from : Nat
  slice_to : Nat
  deriving DecidableEq, Repr

/-- Modelled from the spec: `get_edge_cursor(localIndex)` for a 1-based
local index, "cursor value = sliceFrom + localIndex" (spec section 4.1). -/
def Paginator.get_edge_cursor (p : Paginator) (localIndex : Nat) : Nat :=
  p.slice_from + localIndex

/-- Modelled from the spec: `get_page_info(total)` (spec section 4.1):
`hasNextPage = sliceTo < total`, `hasPreviousPage = sliceFrom > 0`, and the
start/end cursors are the cursors of the first and last edge when any
edges exist (the page `[slice_from, min slice_to total)` is nonempty). -/
def Paginator.get_page_info (p : Paginator) (total : Nat) : PageInfo :=
  { has_next_page := decide (p.slice_to < total)
    has_previous_page := decide (0 < p.slice_from)
    start_cursor :=
      if p.slice_from < min p.slice_to total
      then some (p.get_edge_cursor 1) else none
    end_cursor :=
      if p.slice_from < min p.slice_to total
      then some (min p.slice_to total) else none }

/-- A relay connection edge: `{node, cursor}`. -/
structure Edge (α : Type) where
  node : α
  cursor : Nat
  deriving DecidableEq, Repr

/-- A relay connection with the `total_count` extension
(`AuthorsConnection`, `SearchReportsConnection`, `ReportConnection`). -/
structure Connection (α : Type) where
  edges : List (Edge α)
  page_info : PageInfo
  total_count : Nat
  deriving DecidableEq, Repr

/-- The connection-assembly loop shared verbatim by
`Query.resolve_authors` (schema.py lines 97-103),
`Query.resolve_search_reports` (schema.py lines 118-126) and
`Author.resolve_reports` (types.py lines 148-154):
`for i, r in enumerate(results): cursor = paginator.get_edge_cursor(i + 1);
node = <project r>; edges.append(Edge(node=node, cursor=cursor))`, returning
`Connection(page_info=paginator.get_page_info(total), edges=edges,
total_count=total)`. -/
def assemble_connection (p : Paginator) (total : Nat) (results : List α)
    (node : α → β) : Connection β :=
  { edges := results.enum.map
      (fun x => { node := node x.2, cursor := p.get_edge_cursor (x.1 + 1) })
    page_info := p.get_page_info total
    total_count := total }

/-- The Elasticsearch response consumed by the resolvers: iteration yields
the page's hits in order, `response.hits.total` is the full match count. -/
structure SearchResponse where
  hits : List Hit
  total : Nat
  deriving DecidableEq, Repr

/-- types.py lines 142-154, `Author.resolve_reports`: the search backend's
response for `search.reports_by_author(self.id, paginator)` is passed in as
a value; every report node on the page is projected with `author=self`. -/
def Author.resolve_reports (self : Author) (response : SearchResponse)
    (p : Paginator) : Connection Report :=
  assemble_connection p response.total response.hits
    (fun report => Report.from_es report (some self))

/-- Count of an author's non-draft reports: the value of the
`Count('report', filter=Q(report__is_draft=False))` annotation in
`_get_authors_cache`. -/
def count_non_draft_reports (db : DB) (author_id : Int) : Nat :=
  (db.reports.filter (fun r => r.author_id == author_id && !r.is_draft)).length

/-- schema.py lines 51-54, `_get_authors_cache(ids)`: one batch query
`User.objects.filter(id__in=ids)` annotated with the non-draft report
count, turned into the dict `{a.id: types.Author.from_db(a) for a in
authors}`.  The annotation is computed by the query but `Author.from_db`
reads only `id`, `first_name`, `last_name` and `extra`. -/
def get_authors_cache (db : DB) (ids : List Int) : List (Int × Author) :=
  (db.users.filter (fun u => ids.contains u.id)).map
    (fun u =>
      let total_reports := count_non_draft_reports db u.id
      (u.id, Author.from_db u))

/-- schema.py lines 97-103, the body of `Query.resolve_authors`: the store's
ordering (`User.objects.sorted(**kwargs)`) is external, so the sorted table
is passed in; `total` counts all authors and the page is the Python slice
`[paginator.slice_from:paginator.slice_to]` of the sorted author rows. -/
def resolve_authors (sorted_users : List UserRow) (p : Paginator) :
    Connection Author :=
  let total := (sorted_users.filter (fun u => u.is_author)).length
  let authors := ((sorted_users.filter (fun u => u.is_author)).drop
    p.slice_from).take (p.slice_to - p.slice_from)
  assemble_connection p total authors Author.from_db

/-- The edge-building loop of `Query.resolve_search_reports` (schema.py
lines 121-124), with the running `enumerate` index: each report node takes
its author from the cache dict (`authors[report.author_id]`); a missing key
is Python's `KeyError`, modelled by `none`. -/
def build_report_edges (p : Paginator) (cache : List (Int × Author)) :
    Nat → List Hit → Option (List (Edge Report))
  | _, [] => some []
  | i, hit :: rest =>
    match cache.lookup hit.author_id with
    | none => none
    | some a =>
      match build_report_edges p cache (i + 1) rest with
      | none => none
      | some es =>
        some ({ node := Report.from_es hit (some a)
                cursor := p.get_edge_cursor (i + 1) } :: es)

/-- schema.py lines 105-126, `Query.resolve_search_reports`: the query
sanitization and the search call are external, so the search response is
passed in as a value.  When the page is nonempty, one batch author lookup
`_get_authors_cache(ids=[r.author_id for r in response])` is performed and
the edges are built from it.  The first component is the resulting
connection (`none` models the `KeyError` internal error on a missing
author id); the second component is the log of batch lookups issued, each
entry the `ids` argument of one `_get_authors_cache` call. -/
def resolve_search_reports (db : DB) (response : SearchResponse)
    (p : Paginator) : Option (Connection Report) × List (List Int) :=
  let total := response.total
  let page_info := p.get_page_info total
  if response.hits.isEmpty then
    (some { edges := [], page_info := page_info, total_count := total }, [])
  else
    let ids := response.hits.map (fun r => r.author_id)
    let authors := get_authors_cache db ids
    match build_report_edges p authors 0 response.hits with
    | none => (none, [ids])
    | some edges =>
      (some { edges := edges, page_info := page_info, total_count := total },
       [ids])

/-! Concrete store states, hits and paginator states used to instantiate
the theorems below on closed inputs. -/

/-- A hit with a highlighted `title` fragment, a raw `body`, and no
`received_benefit` value, as in the spec's highlight-merge scenario. -/
def hit_kava : Hit :=
  { meta_id := "r1"
    author_id := 1
    date := "2018-01-01"
    published := "2018-01-05"
    extra := "e1"
    title := some "kava"
    body := some "raw body"
    received_benefit := none
    provided_benefit := some "tea"
    our_participants := none
    other_participants := none
    meta_highlight := some [(TextField.title, ["<mark>kava</mark>"])] }

def user_alice : UserRow :=
  { id := 1, openid_uid := "uid1", first_name := "Alice", last_name := "A"
    email := "alice", is_author := true, extra := "ea" }

def user_bob : UserRow :=
  { id := 2, openid_uid := "uid2", first_name := "Bob", last_name := "B"
    email := "bob", is_author := true, extra := "eb" }

def user_carol : UserRow :=
  { id := 3, openid_uid := "uid3", first_name := "Carol", last_name := "C"
    email := "carol", is_author := false, extra := "ec" }

def store_users : List UserRow := [user_alice, user_bob, user_carol]

/-- A plain hit (no highlighting) referencing author 1. -/
def hit_one : Hit :=
  { meta_id := "d1", author_id := 1, date := "2018-02-01"
    published := "2018-02-02", extra := "x1", title := some "t1"
    body := some "b1", received_benefit := none, provided_benefit := none
    our_participants := none, other_participants := none
    meta_highlight := none }

/-- A plain hit referencing author 2. -/
def hit_two : Hit :=
  { meta_id := "d2", author_id := 2, date := "2018-03-01"
    published := "2018-03-02", extra := "x2", title := some "t2"
    body := some "b2", received_benefit := none, provided_benefit := none
    our_participants := none, other_participants := none
    meta_highlight := none }

/-- A plain hit referencing author 1 again, so the page references author
ids `[1, 2, 1]` as in the spec's batch-hydration scenario. -/
def hit_three : Hit :=
  { meta_id := "d3", author_id := 1, date := "2018-04-01"
    published := "2018-04-02", extra := "x3", title := some "t3"
    body := some "b3", received_benefit := none, provided_benefit := none
    our_participants := none, other_participants := none
    meta_highlight := none }

/-- A hit referencing an author id that is absent from `store_users`. -/
def hit_orphan : Hit :=
  { meta_id := "d9", author_id := 99, date := "2018-05-01"
    published := "2018-05-02", extra := "x9", title := some "t9"
    body := some "b9", received_benefit := none, provided_benefit := none
    our_participants := none, other_participants := none
    meta_highlight := none }

def store_db : DB := { users := store_users, reports := [] }

def resp_three : SearchResponse := { hits := [hit_one, hit_two, hit_three], total := 5 }

def pag_first : Paginator := { slice_from := 0, slice_to := 10 }

/-- Two stores with the same single user but different numbers of that
user's non-draft reports. -/
def db_no_reports : DB := { users := [user_alice], reports := [] }

def db_one_report : DB :=
  { users := [user_alice], reports := [{ author_id := 1, is_draft := false }] }

/-! Helper lemmas. -/

/-- Every text field of a projected report is exactly the highlight merge
of that field on the hit. -/
theorem from_es_textField (hit : Hit) (a : Option Author) (f : TextField) :
    (Report.from_es hit a).textField f = get_higlighted hit f := by
  cases f <;> rfl

/-- `get_higlighted` reads the hit only at the queried field: its value is
a function of the hit's highlight entry for the field and the hit's raw
value of the field. -/
theorem get_higlighted_congr (hit hit' : Hit) (f : TextField)
    (hhl : hit'.meta_highlight.bind (fun hl => hl.lookup f) =
      hit.meta_highlight.bind (fun hl => hl.lookup f))
    (hraw : hit'.fieldVal f = hit.fieldVal f) :
    get_higlighted hit' f = get_higlighted hit f := by
  unfold get_higlighted
  rw [hhl, hraw]

/-! Theorems settling the claims. -/

/-- C3: for every total count and every Paginator state,
`get_page_info(total)` returns `hasNextPage = (sliceTo < total)` and
`hasPreviousPage = (sliceFrom > 0)`. -/
theorem page_info_flags (p : Paginator) (total : Nat) :
    ((p.get_page_info total).has_next_page = true ↔ p.slice_to < total)
    ∧ ((p.get_page_info total).has_previous_page = true ↔ p.slice_from > 0) := by
  constructor <;> simp [Paginator.get_page_info]

/-- Witness for C3 on the first page of size 10 with 15 total results:
there is a next page and no previous page. -/
theorem page_info_flags_witness :
    (pag_first.get_page_info 15).has_next_page = true
    ∧ (pag_first.get_page_info 15).has_previous_page = false := by
  constructor
  · exact (page_info_flags pag_first 15).1.mpr (by decide)
  · cases hx : (pag_first.get_page_info 15).has_previous_page
    · rfl
    · exact absurd ((page_info_flags pag_first 15).2.mp hx) (by decide)

/-- C10: for every requested id string — numeric or not — `User.get_node`
returns null when the context is unauthenticated; the id is never parsed
or compared and no store is consulted, so an anonymous caller can never
obtain a `User` node (nor even an invalid-id error). -/
theorem user_get_node_unauthenticated (id : String) :
    User.get_node { user := none } id = .ok none := rfl

/-- C9: only the six text fields of a projected report are subject to
highlight merging: `id`, `author`, `date`, `published` and `extra` equal
the raw hit data (resp. the supplied author node) under every highlight
configuration of the hit, so they are never replaced by highlighted
fragments. -/
theorem from_es_frame (h : Hit) (hl : Option (List (TextField × List String)))
    (a : Option Author) :
    (Report.from_es { h with meta_highlight := hl } a).id = h.meta_id
    ∧ (Report.from_es { h with meta_highlight := hl } a).author = a
    ∧ (Report.from_es { h with meta_highlight := hl } a).date = h.date
    ∧ (Report.from_es { h with meta_highlight := hl } a).published = h.published
    ∧ (Report.from_es { h with meta_highlight := hl } a).extra = h.extra :=
  ⟨rfl, rfl, rfl, rfl, rfl⟩

/-- C1: highlight merging, per text field of the projected report: a
present highlighted fragment is used verbatim; otherwise a present raw
value is used; otherwise the empty string — and the merge of a field
depends only on that field's highlight entry and raw value on the hit,
independently of all other fields. -/
theorem highlight_merge (hit : Hit) (f : TextField) (a : Option Author) :
    (∀ hl frag rest, hit.meta_highlight = some hl →
      hl.lookup f = some (frag :: rest) →
      (Report.from_es hit a).textField f = frag)
    ∧ (hit.meta_highlight.bind (fun hl => hl.lookup f) = none →
      ∀ v, hit.fieldVal f = some v → (Report.from_es hit a).textField f = v)
    ∧ (hit.meta_highlight.bind (fun hl => hl.lookup f) = none →
      hit.fieldVal f = none → (Report.from_es hit a).textField f = "")
    ∧ (∀ (hit' : Hit) (a' : Option Author),
      hit'.meta_highlight.bind (fun hl => hl.lookup f) =
        hit.meta_highlight.bind (fun hl => hl.lookup f) →
      hit'.fieldVal f = hit.fieldVal f →
      (Report.from_es hit' a').textField f = (Report.from_es hit a).textField f) := by
  refine ⟨?_, ?_, ?_, ?_⟩
  · intro hl frag rest hsome hlook
    rw [from_es_textField]
    unfold get_higlighted
    rw [hsome]
    simp [hlook]
  · intro hnone v hv
    rw [from_es_textField]
    unfold get_higlighted
    rw [hnone, hv]
    rfl
  · intro hnone hv
    rw [from_es_textField]
    unfold get_higlighted
    rw [hnone, hv]
    rfl
  · intro hit' a' hhl hraw
    rw [from_es_textField, from_es_textField]
    exact get_higlighted_congr hit hit' f hhl hraw

/-- Witness for C1 on the concrete hit `hit_kava`: the highlighted title
fragment is used verbatim, the un-highlighted body falls back to the raw
value, and the absent `received_benefit` becomes the empty string. -/
theorem highlight_merge_witness :
    (Report.from_es hit_kava none).textField .title = "<mark>kava</mark>"
    ∧ (Report.from_es hit_kava none).textField .body = "raw body"
    ∧ (Report.from_es hit_kava none).textField .received_benefit = "" := by
  refine ⟨?_, ?_, ?_⟩
  · exact (highlight_merge hit_kava .title none).1
      [(TextField.title, ["<mark>kava</mark>"])] "<mark>kava</mark>" [] rfl rfl
  · exact (highlight_merge hit_kava .body none).2.1 rfl "raw body" rfl
  · exact (highlight_merge hit_kava .received_benefit none).2.2.1 rfl rfl

/-- C5: for an authenticated viewer, `User.get_node` returns the user
entity exactly when the requested id equals the viewer's own id, and null
for every other id.  The resolver reads only `info.context.user` — it
takes no user store at all — so for an id different from the viewer's the
null result cannot depend on whether a user with that id exists. -/
theorem user_get_node_viewer_only (viewer : UserRow) (s : String) (n : Int)
    (hn : parse_int s = some n) :
    (User.get_node { user := some viewer } s =
        .ok (some (User.from_db viewer)) ↔ n = viewer.id)
    ∧ (n ≠ viewer.id → User.get_node { user := some viewer } s = .ok none) := by
  have hres : User.get_node { user := some viewer } s =
      if n = viewer.id then .ok (some (User.from_db viewer)) else .ok none := by
    simp only [User.get_node, hn]
    by_cases h : n = viewer.id <;> simp [h]
  rw [hres]
  constructor
  · constructor
    · intro h
      by_contra hne
      rw [if_neg hne] at h
      exact Option.noConfusion (Except.ok.inj h)
    · intro h
      rw [if_pos h]
  · intro h
    rw [if_neg h]

/-- Witness for C5: authenticated as `user_alice` (id 1), requesting id
"2" yields null and requesting the own id "1" yields the viewer's
projection. -/
theorem user_get_node_viewer_only_witness :
    User.get_node { user := some user_alice } "2" = .ok none
    ∧ User.get_node { user := some user_alice } "1" =
        .ok (some (User.from_db user_alice)) := by
  constructor
  · exact (user_get_node_viewer_only user_alice "2" 2 (by decide)).2 (by decide)
  · exact (user_get_node_viewer_only user_alice "1" 1 (by decide)).1.mpr (by decide)

/-- C6: `Report.get_node` returns null — not an error — when the search
index holds no document with the requested id; otherwise it returns the
projection of the found document, with the author field resolved by a
single `Author.get_node` lookup on the document's `author_id` (the batch
cache is not involved). -/
theorem report_get_node_spec (es : List Hit) (users : List UserRow) (id : String) :
    (ReportDoc_get es id = none → Report.get_node es users id = none)
    ∧ (∀ r, ReportDoc_get es id = some r →
      Report.get_node es users id =
        some (Report.from_es r (Author.get_node users r.author_id))) := by
  constructor
  · intro h
    unfold Report.get_node
    rw [h]
  · intro r h
    unfold Report.get_node
    rw [h]

/-- Witness for C6: on an index containing only `hit_kava` (id "r1"), the
lookup of the nonexistent id "zzz" is null and the lookup of "r1" is the
projection with the author resolved through `Author.get_node`. -/
theorem report_get_node_spec_witness :
    Report.get_node [hit_kava] store_users "zzz" = none
    ∧ Report.get_node [hit_kava] store_users "r1" =
        some (Report.from_es hit_kava
          (Author.get_node store_users hit_kava.author_id)) := by
  constructor
  · exact (report_get_node_spec [hit_kava] store_users "zzz").1 (by decide)
  · exact (report_get_node_spec [hit_kava] store_users "r1").2 hit_kava (by decide)

/-- C7: `Author.get_node` queries the user store restricted to
`is_author = true` rows and returns null — rather than an error — both
when no user with the requested id exists and when the user exists but is
not an author; when the user with the id is an author, it returns their
`Author.from_db` projection.  The id column of the store is unique
(primary key), which the `Nodup` hypothesis records. -/
theorem author_get_node_spec (users : List UserRow) (id : Int)
    (hnd : (users.map UserRow.id).Nodup) :
    ((∀ u ∈ users, u.id ≠ id) → Author.get_node users id = none)
    ∧ (∀ u ∈ users, u.id = id → u.is_author = false →
        Author.get_node users id = none)
    ∧ (∀ u ∈ users, u.id = id → u.is_author = true →
        Author.get_node users id = some (Author.from_db u)) := by
  refine ⟨?_, ?_, ?_⟩
  · intro h
    unfold Author.get_node
    rw [List.find?_eq_none.mpr]
    · rfl
    · intro u hu
      simp [h u hu]
  · induction users with
    | nil => intro u hu; exact absurd hu (List.not_mem_nil u)
    | cons v rest ih =>
      intro u hu hid hauth
      rcases List.mem_cons.mp hu with hv | hrest
      · subst hv
        unfold Author.get_node
        rw [List.find?_cons_of_neg, List.find?_eq_none.mpr]
        · rfl
        · intro w hw
          have : w.id ≠ id := by
            intro hwid
            have hnotin := (List.nodup_cons.mp hnd).1
            exact hnotin (by
              rw [← hid, ← hwid] at *
              exact List.mem_map_of_mem UserRow.id hw)
          simp [this]
        · simp [hid, hauth]
      · have hnd' : (rest.map UserRow.id).Nodup := (List.nodup_cons.mp hnd).2
        have hvne : v.id ≠ id := by
          intro hvid
          have hnotin := (List.nodup_cons.mp hnd).1
          rw [← hid] at hvid
          exact hnotin (hvid ▸ List.mem_map_of_mem UserRow.id hrest)
        have := ih hnd' u hrest hid hauth
        unfold Author.get_node at this ⊢
        rw [List.find?_cons_of_neg]
        · exact this
        · simp [hvne]
  · induction users with
    | nil => intro u hu; exact absurd hu (List.not_mem_nil u)
    | cons v rest ih =>
      intro u hu hid hauth
      rcases List.mem_cons.mp hu with hv | hrest
      · subst hv
        unfold Author.get_node
        rw [List.find?_cons_of_pos _ (by simp [hid, hauth])]
        rfl
      · have hnd' : (rest.map UserRow.id).Nodup := (List.nodup_cons.mp hnd).2
        have hvne : v.id ≠ id := by
          intro hvid
          have hnotin := (List.nodup_cons.mp hnd).1
          rw [← hid] at hvid
          exact hnotin (hvid ▸ List.mem_map_of_mem UserRow.id hrest)
        have := ih hnd' u hrest hid hauth
        unfold Author.get_node at this ⊢
        rw [List.find?_cons_of_neg]
        · exact this
        · simp [hvne]

/-- Witness for C7 on the concrete store: id 1 is an author and is
returned, id 3 exists but is not an author so it is null, and id 99 does
not exist so it is null. -/
theorem author_get_node_spec_witness :
    Author.get_node store_users 1 = some (Author.from_db user_alice)
    ∧ Author.get_node store_users 3 = none
    ∧ Author.get_node store_users 99 = none := by
  refine ⟨?_, ?_, ?_⟩
  · exact (author_get_node_spec store_users 1 (by decide)).2.2 user_alice
      (by decide) (by decide) (by decide)
  · exact (author_get_node_spec store_users 3 (by decide)).2.1 user_carol
      (by decide) (by decide) (by decide)
  · exact (author_get_node_spec store_users 99 (by decide)).1 (by decide)

/-- C2: the connection-assembly loop pairs the result at 0-based position
`i` with cursor `get_edge_cursor (i + 1)` (a 1-based local index),
attaches `PageInfo` from `get_page_info total` and `totalCount = total`,
and the sequence of edge nodes is exactly the projection of the input
result sequence in the same order — nothing is re-sorted or dropped. -/
theorem connection_assembly {α β : Type} (results : List α) (node : α → β)
    (p : Paginator) (total : Nat) :
    (assemble_connection p total results node).edges.map Edge.node =
        results.map node
    ∧ (∀ i : Nat, (assemble_connection p total results node).edges[i]? =
        results[i]?.map
          (fun r => { node := node r, cursor := p.get_edge_cursor (i + 1) }))
    ∧ (assemble_connection p total results node).page_info =
        p.get_page_info total
    ∧ (assemble_connection p total results node).total_count = total := by
  refine ⟨?_, ?_, rfl, rfl⟩
  · show (results.enum.map _).map Edge.node = results.map node
    rw [List.map_map]
    have hcomp : (Edge.node ∘ fun x : Nat × α =>
        ({ node := node x.2, cursor := p.get_edge_cursor (x.1 + 1) } : Edge β))
        = node ∘ Prod.snd := rfl
    rw [hcomp, ← List.map_map, List.enum_map_snd]
  · intro i
    show (results.enum.map _)[i]? = _
    rw [List.getElem?_map, List.getElem?_enum]
    cases results[i]? <;> rfl

/-- The authors cache is the batch-filtered user rows keyed by id and
projected with `Author.from_db`; the `total_reports` annotation computed
inside is dropped by the projection. -/
theorem get_authors_cache_eq (db : DB) (ids : List Int) :
    get_authors_cache db ids =
      (db.users.filter (fun u => ids.contains u.id)).map
        (fun u => (u.id, Author.from_db u)) := rfl

/-- A successful lookup in an id-keyed projection list comes from a row of
the underlying list whose id is the looked-up key. -/
theorem lookup_map_from_db (l : List UserRow) (k : Int) (a : Author)
    (h : (l.map (fun u => (u.id, Author.from_db u))).lookup k = some a) :
    ∃ u, u ∈ l ∧ u.id = k ∧ a = Author.from_db u := by
  induction l with
  | nil => exact absurd h (by simp [List.lookup])
  | cons v rest ih =>
    rw [List.map_cons, List.lookup] at h
    by_cases hk : k = v.id
    · refine ⟨v, List.mem_cons_self v rest, hk.symm, ?_⟩
      have hb : (k == v.id) = true := beq_iff_eq.mpr hk
      simp only [hb] at h
      exact (Option.some.inj h).symm
    · have hb : (k == v.id) = false := by simpa using hk
      simp only [hb] at h
      obtain ⟨u, hu, hid, ha⟩ := ih h
      exact ⟨u, List.mem_cons_of_mem v hu, hid, ha⟩

/-- C8 counterexample: two stores holding the same single author row but
different numbers of that author's non-draft reports (0 and 1) produce
identical cache entries, so the constructed AuthorProjection cannot carry
a `totalReports` count equal to the author's number of non-draft reports —
the `Author` type declares no such field and `Author.from_db` drops the
`Count` annotation. -/
theorem authors_cache_count_counterexample :
    get_authors_cache db_no_reports [1] = get_authors_cache db_one_report [1]
    ∧ count_non_draft_reports db_no_reports 1 = 0
    ∧ count_non_draft_reports db_one_report 1 = 1 := by decide

/-- C8 amended: the batch author query of listing context computes each
author's non-draft report count as an annotation, but every constructed
AuthorProjection — in listing context just as in a single-node lookup —
carries only the four fields `id`, `first_name`, `last_name` and `extra`
of the user row, and no `totalReports` count. -/
theorem authors_projection_plain :
    (∀ (db : DB) (ids : List Int) (k : Int) (a : Author),
      (get_authors_cache db ids).lookup k = some a →
      ∃ u, u ∈ db.users ∧ u.id = k ∧ ids.contains u.id ∧ a = Author.from_db u
        ∧ a = { id := u.id, first_name := u.first_name
                last_name := u.last_name, extra := u.extra })
    ∧ (∀ (users : List UserRow) (id : Int) (a : Author),
      Author.get_node users id = some a →
      ∃ u, u ∈ users ∧ a = Author.from_db u
        ∧ a = { id := u.id, first_name := u.first_name
                last_name := u.last_name, extra := u.extra }) := by
  constructor
  · intro db ids k a h
    rw [get_authors_cache_eq] at h
    obtain ⟨u, hu, hid, ha⟩ := lookup_map_from_db _ k a h
    have hmem := List.mem_filter.mp hu
    exact ⟨u, hmem.1, hid, hmem.2, ha, ha⟩
  · intro users id a h
    unfold Author.get_node at h
    cases hf : users.find? (fun u => u.id == id && u.is_author) with
    | none => rw [hf] at h; exact Option.noConfusion h
    | some u =>
      rw [hf] at h
      refine ⟨u, List.mem_of_find?_eq_some hf, ?_, ?_⟩
      · exact (Option.some.inj h).symm
      · exact (Option.some.inj h).symm

/-- Witness for the amended C8: the cache entry for id 1 over
`db_one_report` is the bare four-field projection of `user_alice`. -/
theorem authors_projection_plain_witness :
    ∃ u, u ∈ db_one_report.users ∧ u.id = 1 ∧ ([(1 : Int)]).contains u.id
      ∧ Author.from_db user_alice = Author.from_db u
      ∧ Author.from_db user_alice =
          { id := u.id, first_name := u.first_name
            last_name := u.last_name, extra := u.extra } :=
  authors_projection_plain.1 db_one_report [1] 1 (Author.from_db user_alice)
    (by decide)

/-- A cache hit's projection carries the looked-up id. -/
theorem cache_lookup_id (db : DB) (ids : List Int) (k : Int) (a : Author)
    (h : (get_authors_cache db ids).lookup k = some a) : a.id = k := by
  rw [get_authors_cache_eq] at h
  obtain ⟨u, _, hid, ha⟩ := lookup_map_from_db _ k a h
  rw [ha]
  exact hid

/-- The edge-building loop fails exactly when some hit on the page
references an author id missing from the cache. -/
theorem build_report_edges_none_iff (p : Paginator)
    (cache : List (Int × Author)) (i : Nat) (hits : List Hit) :
    build_report_edges p cache i hits = none ↔
      ∃ hit ∈ hits, cache.lookup hit.author_id = none := by
  induction hits generalizing i with
  | nil => simp [build_report_edges]
  | cons hit rest ih =>
    unfold build_report_edges
    cases hl : cache.lookup hit.author_id with
    | none =>
      simp only [true_iff]
      exact ⟨hit, List.mem_cons_self hit rest, hl⟩
    | some a =>
      cases hrec : build_report_edges p cache (i + 1) rest with
      | none =>
        simp only [true_iff]
        obtain ⟨h0, hm, hn⟩ := (ih (i + 1)).mp hrec
        exact ⟨h0, List.mem_cons_of_mem hit hm, hn⟩
      | some es =>
        refine iff_of_false (fun hcontra => Option.noConfusion hcontra) ?_
        rintro ⟨h0, hm, hn⟩
        rcases List.mem_cons.mp hm with h0eq | h0rest
        · rw [h0eq] at hn
          rw [hn] at hl
          exact Option.noConfusion hl
        · exact Option.noConfusion
            (((ih (i + 1)).mpr ⟨h0, h0rest, hn⟩).symm.trans hrec)

/-- A successful run of the edge-building loop yields one edge per hit, in
order: the edge at position `j` carries the node
`Report.from_es hit (some a)` where `a` is the cache's entry for the hit's
`author_id`, and the cursor for 1-based local index `i + j + 1`. -/
theorem build_report_edges_some (p : Paginator)
    (cache : List (Int × Author)) :
    ∀ (i : Nat) (hits : List Hit) (es : List (Edge Report)),
    build_report_edges p cache i hits = some es →
    es.length = hits.length
    ∧ ∀ (j : Nat) (hit : Hit), hits[j]? = some hit →
        ∃ a, cache.lookup hit.author_id = some a
          ∧ es[j]? = some { node := Report.from_es hit (some a)
                            cursor := p.get_edge_cursor (i + j + 1) } := by
  intro i hits
  induction hits generalizing i with
  | nil =>
    intro es h
    have h' : es = [] := (Option.some.inj (by simpa [build_report_edges] using h.symm))
    subst h'
    exact ⟨rfl, by intro j hit hj; simp at hj⟩
  | cons hit rest ih =>
    intro es h
    unfold build_report_edges at h
    cases hl : cache.lookup hit.author_id with
    | none => rw [hl] at h; exact Option.noConfusion h
    | some a =>
      rw [hl] at h
      cases hrec : build_report_edges p cache (i + 1) rest with
      | none => rw [hrec] at h; exact Option.noConfusion h
      | some es' =>
        rw [hrec] at h
        have hes : es = { node := Report.from_es hit (some a)
                          cursor := p.get_edge_cursor (i + 1) } :: es' :=
          (Option.some.inj h).symm
        subst hes
        obtain ⟨hlen, hpt⟩ := ih (i + 1) es' hrec
        constructor
        · simp [hlen]
        · intro j h0 hj
          cases j with
          | zero =>
            rw [List.getElem?_cons_zero] at hj
            obtain rfl : hit = h0 := Option.some.inj hj
            refine ⟨a, hl, ?_⟩
            rw [List.getElem?_cons_zero]
          | succ j' =>
            rw [List.getElem?_cons_succ] at hj
            obtain ⟨a', ha1, ha2⟩ := hpt j' h0 hj
            refine ⟨a', ha1, ?_⟩
            rw [List.getElem?_cons_succ, ha2]
            have hadd : i + 1 + j' + 1 = i + (j' + 1) + 1 := by omega
            rw [hadd]

/-- C4: on a nonempty page of search-report hits, author hydration issues
exactly one batch store lookup, whose `ids` argument is exactly the list
of author ids referenced by the hits; when the resolver succeeds, each
edge's author node is the cache's entry for that edge's hit's `author_id`
and carries that very id; and the resolver fails (Python `KeyError`, an
internal error) exactly when some hit's author id is absent from the
cache. -/
theorem search_reports_hydration (db : DB) (response : SearchResponse)
    (p : Paginator) (hne : response.hits ≠ []) :
    (resolve_search_reports db response p).2 =
        [response.hits.map (fun r => r.author_id)]
    ∧ (∀ conn, (resolve_search_reports db response p).1 = some conn →
        conn.edges.length = response.hits.length
        ∧ conn.page_info = p.get_page_info response.total
        ∧ conn.total_count = response.total
        ∧ ∀ (i : Nat) (hit : Hit), response.hits[i]? = some hit →
            ∃ a, (get_authors_cache db
                (response.hits.map (fun r => r.author_id))).lookup
                hit.author_id = some a
              ∧ conn.edges[i]? = some { node := Report.from_es hit (some a)
                                        cursor := p.get_edge_cursor (i + 1) }
              ∧ a.id = hit.author_id)
    ∧ ((resolve_search_reports db response p).1 = none ↔
        ∃ hit ∈ response.hits,
          (get_authors_cache db
            (response.hits.map (fun r => r.author_id))).lookup
            hit.author_id = none) := by
  have hie : response.hits.isEmpty = false := by
    cases h' : response.hits with
    | nil => exact absurd h' hne
    | cons a l => rfl
  have key : resolve_search_reports db response p =
      (match build_report_edges p
          (get_authors_cache db (response.hits.map (fun r => r.author_id))) 0
          response.hits with
       | none => (none, [response.hits.map (fun r => r.author_id)])
       | some es =>
         (some { edges := es, page_info := p.get_page_info response.total
                 total_count := response.total },
          [response.hits.map (fun r => r.author_id)])) := by
    unfold resolve_search_reports
    rw [hie]
    rfl
  rw [key]
  cases hb : build_report_edges p
      (get_authors_cache db (response.hits.map (fun r => r.author_id))) 0
      response.hits with
  | none =>
    refine ⟨rfl, ?_, ?_⟩
    · intro conn hconn
      exact Option.noConfusion hconn
    · simp only [true_iff]
      exact (build_report_edges_none_iff p _ 0 response.hits).mp hb
  | some es =>
    obtain ⟨hlen, hpt⟩ := build_report_edges_some p _ 0 response.hits es hb
    refine ⟨rfl, ?_, ?_⟩
    · intro conn hconn
      have hc : conn = { edges := es, page_info := p.get_page_info response.total
                         total_count := response.total } :=
        (Option.some.inj hconn).symm
      subst hc
      refine ⟨hlen, rfl, rfl, ?_⟩
      intro i hit hi
      obtain ⟨a, ha1, ha2⟩ := hpt i hit hi
      refine ⟨a, ha1, ?_, cache_lookup_id db _ _ a ha1⟩
      rw [ha2]
      have : 0 + i + 1 = i + 1 := by omega
      rw [this]
    · refine iff_of_false (fun hcontra => Option.noConfusion hcontra) ?_
      rintro ⟨h0, hm, hn⟩
      exact Option.noConfusion
        (((build_report_edges_none_iff p _ 0 response.hits).mpr
          ⟨h0, hm, hn⟩).symm.trans hb)

/-- Witness for C4, the spec's batch-hydration scenario: three hits
referencing author ids `[1, 2, 1]` cause exactly one batch lookup with ids
`[1, 2, 1]` (covering the set `{1, 2}`), and the three edges carry the
correctly matched author nodes for ids 1, 2 and 1. -/
theorem search_reports_hydration_witness :
    (resolve_search_reports store_db resp_three pag_first).2 = [[1, 2, 1]]
    ∧ (resolve_search_reports store_db resp_three pag_first).1.map
        (fun conn => conn.edges.map (fun e => e.node.author)) =
      some [some (Author.from_db user_alice), some (Author.from_db user_bob),
            some (Author.from_db user_alice)] := by
  constructor
  · exact (search_reports_hydration store_db resp_three pag_first
      (by decide)).1
  · decide
